import Mathlib

/-!
Shallow embedding of `audino` (src/audino/core.py): the `HealthTracker`
status store.  The tracker owns a dict `_heath_states : dict[str, bool]`
(field name as spelled in the source), a mediator, a mediator channel
string and an `asyncio.Lock`.  The mediator (`rayquaza.Mediator`) is an
external collaborator; it is embedded at its interface boundary (spec §6):
`publish(channel, message, wait)` appends the message to a published-event
log, `create_subscription(channel, event_type, handler)` appends a
registration record.  Asynchronous delivery is modelled denotationally
(each registration eventually receives, in order, the events published on
its channel after its registration) and, for the lock/async-ordering
claims, by a micro-step trace of `set_health`'s body.
-/

/-- Embedding of `_HealthStatus(Message)` (core.py lines 16-21): the change
event, a record with fields `type` and `healthy` set in `__init__`. -/
structure _HealthStatus where
  type : String
  healthy : Bool
deriving DecidableEq

/-- One registration made through `Mediator.create_subscription`.  The
callback is identified opaquely by a natural number; `regIndex` records how
many events had been published on the mediator when the registration was
made (events from `regIndex` on are the ones delivered to it). -/
structure Subscription where
  channel : String
  callback : Nat
  regIndex : Nat
deriving DecidableEq

/-- The external `rayquaza.Mediator`, embedded at the interface boundary of
spec §6: a log of published `(channel, message)` events in publish order,
and the list of registrations. -/
structure Mediator where
  published : List (String × _HealthStatus)
  subs : List Subscription
deriving DecidableEq

/-- `Mediator.publish(channel, message, wait=...)` (spec §6): submit the
event for delivery.  The `wait` flag controls only whether the caller
waits for callbacks (trace-level, see `Step`); the submitted event is
appended to the log either way. -/
def Mediator.publish (m : Mediator) (channel : String) (message : _HealthStatus)
    (wait : Bool) : Mediator :=
  { m with published := m.published ++ [(channel, message)] }

/-- `Mediator.create_subscription(channel, _HealthStatus, handler)`
(spec §6): register a handler for the single event type on `channel`. -/
def Mediator.create_subscription (m : Mediator) (channel : String) (callback : Nat) :
    Mediator :=
  { m with subs := m.subs ++ [⟨channel, callback, m.published.length⟩] }

/-- The stream of messages a given registration receives: the events
published on its channel from its registration point on, in publish
order (spec §5: per-observer order follows publish order). -/
def Mediator.deliveredTo (m : Mediator) (s : Subscription) : List _HealthStatus :=
  ((m.published.drop s.regIndex).filter (fun p => p.1 == s.channel)).map (fun p => p.2)

/-- `d.get(k, default)` on a Python dict, embedded as lookup in an
association list (first match wins; a dict has one entry per key). -/
def dictGet : List (String × Bool) → String → Bool → Bool
  | [], _, default => default
  | (k0, v0) :: rest, k, default => if k0 = k then v0 else dictGet rest k default

/-- `d[k] = v` on a Python dict: overwrite the entry for `k` in place
when present, append a new entry otherwise. -/
def dictSet : List (String × Bool) → String → Bool → List (String × Bool)
  | [], k, v => [(k, v)]
  | (k0, v0) :: rest, k, v =>
    if k0 = k then (k0, v) :: rest else (k0, v0) :: dictSet rest k v

/-- The key list of a Python dict (insertion order). -/
def dictKeys (d : List (String × Bool)) : List String := d.map (fun p => p.1)

/-- Lower-case hex digit for a value below 16, as produced by
`bytes.hex()`: `0`-`9` then `a`-`f`. -/
def hexChar (n : Nat) : Char :=
  if n < 10 then Char.ofNat (48 + n) else Char.ofNat (87 + n)

/-- The character stream of `bs.hex()`: two lower-case hex digits per
byte, high nibble first. -/
def bytesHexAux : List Nat → List Char
  | [] => []
  | b :: rest => hexChar (b / 16) :: hexChar (b % 16) :: bytesHexAux rest

/-- `os.urandom(16).hex()` applied to a given byte draw: the 32-character
lower-case hex string of the bytes. -/
def bytesHex (bs : List Nat) : String := ⟨bytesHexAux bs⟩

/-- Python `a or b` for `a : str | None`: `b` when `a` is `None` or the
empty string (both falsy), otherwise `a`. -/
def pyOrStr (a : Option String) (b : String) : String :=
  match a with
  | none => b
  | some s => if s = "" then b else s

/-- Embedding of `HealthTracker` (core.py): the health dict, the mediator
and the channel string.  The `asyncio.Lock` carries no data; it appears in
the micro-step trace `set_health_steps`. -/
structure HealthTracker where
  _heath_states : List (String × Bool)
  _mediator : Mediator
  _mediator_channel : String
deriving DecidableEq

/-- `HealthTracker.__init__(mediator=None, *, mediator_channel=None)`
(core.py lines 44-48): empty dict, `mediator or Mediator()`,
`mediator_channel or os.urandom(16).hex()`.  The 16 random bytes drawn by
`os.urandom(16)` are passed in explicitly as `urandom16`. -/
def HealthTracker.init (mediator : Option Mediator) (mediator_channel : Option String)
    (urandom16 : List Nat) : HealthTracker :=
  { _heath_states := []
    _mediator := mediator.getD ⟨[], []⟩
    _mediator_channel := pyOrStr mediator_channel (bytesHex urandom16) }

/-- `HealthTracker.get_health(type)` (core.py lines 52-68): under the lock,
`self._heath_states.get(type, False)`. -/
def HealthTracker.get_health (t : HealthTracker) (type : String) : Bool :=
  dictGet t._heath_states type false

/-- `HealthTracker.set_health(type, healthy)` (core.py lines 70-88): under
the lock, `self._heath_states[type] = healthy`; then, outside the lock,
construct `message = _HealthStatus(type, healthy)` and
`await self._mediator.publish(self._mediator_channel, message, wait=False)`. -/
def HealthTracker.set_health (t : HealthTracker) (type : String) (healthy : Bool) :
    HealthTracker :=
  { t with
    _heath_states := dictSet t._heath_states type healthy
    _mediator := t._mediator.publish t._mediator_channel ⟨type, healthy⟩ false }

/-- `HealthTracker.subscribe(callback)` (core.py lines 90-103):
`self._mediator.create_subscription(self._mediator_channel, _HealthStatus,
_callback)` where `_callback` wraps `callback`. -/
def HealthTracker.subscribe (t : HealthTracker) (callback : Nat) : HealthTracker :=
  { t with _mediator := t._mediator.create_subscription t._mediator_channel callback }

/-- The wrapper `_callback(message)` defined inside `subscribe` calls
`callback(message.type, message.healthy)`: the argument pair an observer
receives for a delivered message. -/
def observerArgs (message : _HealthStatus) : String × Bool :=
  (message.type, message.healthy)

/-- A public operation on one tracker, for reasoning about sequences of
calls.  `get` reads (no state change), `set` writes, `sub` registers an
opaque callback. -/
inductive Op where
  | set : String → Bool → Op
  | get : String → Op
  | sub : Nat → Op
deriving DecidableEq

/-- The state transition of one public operation (its return value, for
`get`, is read off separately with `get_health`). -/
def applyOp (t : HealthTracker) : Op → HealthTracker
  | .set type healthy => t.set_health type healthy
  | .get _ => t
  | .sub callback => t.subscribe callback

/-- Run a sequence of public operations left to right (the store's total
write order: the lock serialises the calls). -/
def runOps (t : HealthTracker) : List Op → HealthTracker
  | [] => t
  | op :: rest => runOps (applyOp t op) rest

/-- The value of the most recent `set` for `id` in a call sequence, when
any exists. -/
def lastSet : List Op → String → Option Bool
  | [], _ => none
  | op :: rest, id =>
    match lastSet rest id with
    | some v => some v
    | none =>
      match op with
      | Op.set type healthy => if type = id then some healthy else none
      | _ => none

/-- Micro-steps of the body of an operation, for the lock-discipline and
fire-and-forget claims. -/
inductive Step where
  | acquireLock : Step
  | mapWrite : String → Bool → Step
  | releaseLock : Step
  | logDebug : Step
  | constructEvent : _HealthStatus → Step
  | publishSubmit : String → _HealthStatus → Bool → Step
  | awaitDeliveryCompletion : Step
deriving DecidableEq

/-- The micro-step trace of `set_health(type, healthy)` read off the source
body (core.py lines 82-88): `async with self._lock:` brackets the dict
write; the log call, the `_HealthStatus` construction and the
`publish(..., wait=False)` submission follow after the lock is released.
No step awaits delivery completion. -/
def set_health_steps (t : HealthTracker) (type : String) (healthy : Bool) : List Step :=
  [ Step.acquireLock,
    Step.mapWrite type healthy,
    Step.releaseLock,
    Step.logDebug,
    Step.constructEvent ⟨type, healthy⟩,
    Step.publishSubmit t._mediator_channel ⟨type, healthy⟩ false ]

/-- Count of lock acquisitions in a step list. -/
def locksAcquired (steps : List Step) : Nat :=
  steps.countP (fun s => match s with | Step.acquireLock => true | _ => false)

/-- Count of lock releases in a step list. -/
def locksReleased (steps : List Step) : Nat :=
  steps.countP (fun s => match s with | Step.releaseLock => true | _ => false)

/-- Whether the lock is held when the step at index `i` executes: more
acquisitions than releases strictly before `i`. -/
def lockHeldAt (steps : List Step) (i : Nat) : Bool :=
  locksReleased (steps.take i) < locksAcquired (steps.take i)

/-- Whether a step is a publish submission. -/
def isPublishSubmit : Step → Bool
  | Step.publishSubmit _ _ _ => true
  | _ => false

/-- `get_health` with the Python exception behaviour made explicit: the
source reads the dict with total `.get(type, False)` (never `KeyError`),
so the call always succeeds. -/
def HealthTracker.get_healthE (t : HealthTracker) (type : String) :
    Except String Bool :=
  Except.ok (t.get_health type)

/-- `set_health` with the Python exception behaviour made explicit: dict
item assignment on a string key and the mediator submission (spec §6,
never fails) have no raising path. -/
def HealthTracker.set_healthE (t : HealthTracker) (type : String) (healthy : Bool) :
    Except String HealthTracker :=
  Except.ok (t.set_health type healthy)

/-- `subscribe` with the Python exception behaviour made explicit:
registration never fails (spec §6). -/
def HealthTracker.subscribeE (t : HealthTracker) (callback : Nat) :
    Except String HealthTracker :=
  Except.ok (t.subscribe callback)

/-- Iterated `subscribe` with one and the same callback. -/
def subscribeN (t : HealthTracker) (callback : Nat) : Nat → HealthTracker
  | 0 => t
  | n + 1 => (subscribeN t callback n).subscribe callback

/-- Registrations for callback `cb` on the tracker's own channel. -/
def countSubsFor (t : HealthTracker) (cb : Nat) : Nat :=
  (t._mediator.subs.filter
    (fun s => s.callback == cb && s.channel == t._mediator_channel)).length

/-- How many times callback `cb` is invoked for the event at position `p`
of the published log: once per registration on the tracker's channel made
at or before position `p`. -/
def invocationsAt (t : HealthTracker) (cb : Nat) (p : Nat) : Nat :=
  (t._mediator.subs.filter
    (fun s => s.callback == cb && s.channel == t._mediator_channel
      && decide (s.regIndex ≤ p))).length

/-- A concrete store for witnesses: fresh tracker, default mediator, all
16 random bytes zero. -/
def sampleTracker : HealthTracker :=
  HealthTracker.init none none (List.replicate 16 0)

/-- A concrete call sequence for witnesses. -/
def sampleOps : List Op :=
  [Op.set "db" true, Op.sub 0, Op.set "db" false, Op.set "cache" true]

/-! ### Helper lemmas about the dict embedding -/

theorem dictGet_dictSet_same (d : List (String × Bool)) (k : String) (v default : Bool) :
    dictGet (dictSet d k v) k default = v := by
  induction d with
  | nil => simp [dictSet, dictGet]
  | cons p rest ih =>
    obtain ⟨k0, v0⟩ := p
    by_cases h : k0 = k
    · simp [dictSet, dictGet, h]
    · simp [dictSet, dictGet, h, ih]

theorem dictGet_dictSet_ne (d : List (String × Bool)) (k k' : String) (v default : Bool)
    (h : k' ≠ k) :
    dictGet (dictSet d k v) k' default = dictGet d k' default := by
  have hkk : k ≠ k' := fun he => h he.symm
  induction d with
  | nil => simp [dictSet, dictGet, hkk]
  | cons p rest ih =>
    obtain ⟨k0, v0⟩ := p
    by_cases h0 : k0 = k
    · subst h0
      simp [dictSet, dictGet, hkk]
    · by_cases h1 : k0 = k'
      · simp [dictSet, dictGet, h0, h1, h]
      · simp [dictSet, dictGet, h0, h1, ih]

theorem mem_dictKeys_dictSet (d : List (String × Bool)) (k k' : String) (v : Bool)
    (h : k' ∈ dictKeys d) :
    k' ∈ dictKeys (dictSet d k v) := by
  induction d with
  | nil => simp [dictKeys] at h
  | cons p rest ih =>
    obtain ⟨k0, v0⟩ := p
    by_cases hk : k0 = k
    · simpa [dictSet, dictKeys, hk] using h
    · simp only [dictKeys, List.map_cons, List.mem_cons] at h
      rcases h with h | h
      · simp [dictSet, dictKeys, hk, h]
      · simp only [dictSet, if_neg hk, dictKeys, List.map_cons, List.mem_cons]
        exact Or.inr (ih h)

theorem mem_dictKeys_applyOp (t : HealthTracker) (op : Op) (k : String)
    (h : k ∈ dictKeys t._heath_states) :
    k ∈ dictKeys (applyOp t op)._heath_states := by
  cases op with
  | set ty hv => exact mem_dictKeys_dictSet _ _ _ _ h
  | get x => exact h
  | sub c => exact h

theorem mem_dictKeys_runOps (t : HealthTracker) (ops : List Op) (k : String)
    (h : k ∈ dictKeys t._heath_states) :
    k ∈ dictKeys (runOps t ops)._heath_states := by
  induction ops generalizing t with
  | nil => exact h
  | cons op rest ih => exact ih _ (mem_dictKeys_applyOp t op k h)

/-! ### Helper lemmas about runs of operations -/

theorem get_health_runOps (ops : List Op) (t : HealthTracker) (id : String) :
    (runOps t ops).get_health id = (lastSet ops id).getD (t.get_health id) := by
  induction ops generalizing t with
  | nil => rfl
  | cons op rest ih =>
    show (runOps (applyOp t op) rest).get_health id = _
    rw [ih]
    cases hls : lastSet rest id with
    | some v => simp [lastSet, hls]
    | none =>
      simp only [lastSet, hls, Option.getD_none]
      cases op with
      | set ty hv =>
        by_cases hty : ty = id
        · subst hty
          simp [applyOp, HealthTracker.set_health, HealthTracker.get_health,
            dictGet_dictSet_same]
        · simp only [applyOp, if_neg hty, Option.getD_none]
          exact dictGet_dictSet_ne _ _ _ _ _ (fun he => hty he.symm)
      | get x => simp [applyOp]
      | sub c => simp [applyOp, HealthTracker.subscribe, HealthTracker.get_health]

theorem lastSet_eq_none (ops : List Op) (id : String) (h : ∀ v, Op.set id v ∉ ops) :
    lastSet ops id = none := by
  induction ops with
  | nil => rfl
  | cons op rest ih =>
    have hrest : ∀ v, Op.set id v ∉ rest := fun v hv => h v (List.mem_cons_of_mem _ hv)
    simp only [lastSet, ih hrest]
    cases op with
    | set ty hv =>
      have hne : ¬ ty = id := fun he => h hv (by rw [he]; exact List.mem_cons_self _ _)
      simp [hne]
    | get x => rfl
    | sub c => rfl

/-! ### Claim theorems -/

/-- C1: for every sequence of `set_health(id, v)` calls on a single store, a
subsequent `get_health(id)` returns the value of the most recent
`set_health` for that id (last-write-wins under the store's total write
order, here the serialisation of the call sequence). -/
theorem last_write_wins (t : HealthTracker) (ops : List Op) (id : String) (v : Bool)
    (h : lastSet ops id = some v) :
    (runOps t ops).get_health id = v := by
  rw [get_health_runOps, h]
  rfl

theorem last_write_wins_witness :
    lastSet sampleOps "db" = some false ∧
      (runOps sampleTracker sampleOps).get_health "db" = false :=
  ⟨by decide, last_write_wins sampleTracker sampleOps "db" false (by decide)⟩

/-- C2: for every component id on which `set_health` has never been called,
`get_health(id)` returns `false` and does not raise (the exception-explicit
read returns `ok false`); and it does not distinguish a never-reported
component from one reported unhealthy: after `set_health(id, false)` the
read also returns `false`. -/
theorem unknown_defaults_false (mediator : Option Mediator) (channel : Option String)
    (r : List Nat) (ops : List Op) (id : String) (u : HealthTracker)
    (h : ∀ v, Op.set id v ∉ ops) :
    (runOps (HealthTracker.init mediator channel r) ops).get_healthE id
        = Except.ok false ∧
      (u.set_health id false).get_health id = false := by
  constructor
  · show Except.ok _ = _
    rw [get_health_runOps, lastSet_eq_none ops id h]
    rfl
  · show dictGet (dictSet u._heath_states id false) id false = false
    exact dictGet_dictSet_same _ _ _ _

theorem unknown_defaults_false_witness :
    (∀ v, Op.set "nope" v ∉ sampleOps) ∧
      ((runOps (HealthTracker.init none none (List.replicate 16 0)) sampleOps).get_healthE
          "nope" = Except.ok false ∧
        (sampleTracker.set_health "nope" false).get_health "nope" = false) :=
  ⟨fun v => by cases v <;> decide,
   unknown_defaults_false none none (List.replicate 16 0) sampleOps "nope" sampleTracker
     (fun v => by cases v <;> decide)⟩

/-- C3: every `set_health(id, v)` call publishes exactly one change event
carrying `(id, v)` on the store's channel (the published log grows by
exactly that one event), and every registration made before the call on
that channel receives exactly one additional message, namely `(id, v)` —
with no condition relating `v` to the previously stored value, so
redundant writes are neither coalesced nor de-duplicated. -/
theorem one_event_per_write (t : HealthTracker) (id : String) (v : Bool)
    (s : Subscription) (hch : s.channel = t._mediator_channel)
    (hreg : s.regIndex ≤ t._mediator.published.length) :
    (t.set_health id v)._mediator.published
        = t._mediator.published ++ [(t._mediator_channel, ⟨id, v⟩)] ∧
      (t.set_health id v)._mediator.deliveredTo s
        = t._mediator.deliveredTo s ++ [⟨id, v⟩] := by
  refine ⟨rfl, ?_⟩
  simp only [HealthTracker.set_health, Mediator.publish, Mediator.deliveredTo]
  rw [List.drop_append_of_le_length hreg, List.filter_append, List.map_append]
  simp [hch]

theorem one_event_per_write_witness :
    (⟨sampleTracker._mediator_channel, 0, 0⟩ : Subscription).channel
        = sampleTracker._mediator_channel ∧
      ((sampleTracker.set_health "db" true)._mediator.published
          = sampleTracker._mediator.published
            ++ [(sampleTracker._mediator_channel, ⟨"db", true⟩)] ∧
        (sampleTracker.set_health "db" true)._mediator.deliveredTo
            ⟨sampleTracker._mediator_channel, 0, 0⟩
          = sampleTracker._mediator.deliveredTo
              ⟨sampleTracker._mediator_channel, 0, 0⟩ ++ [⟨"db", true⟩]) :=
  ⟨rfl, one_event_per_write sampleTracker "db" true
    ⟨sampleTracker._mediator_channel, 0, 0⟩ rfl (Nat.zero_le _)⟩

/-- C4: in the micro-step trace of `set_health`, the dict write is
bracketed by the lock acquisition and release (the lock is held at the
write step), the lock is released before the event is constructed and
before it is submitted (the lock is not held at either step), and the
write step precedes the submission step (positions 1 < 5 in the trace). -/
theorem write_inside_lock_publish_outside (t : HealthTracker) (id : String) (v : Bool) :
    (set_health_steps t id v).take 3
        = [Step.acquireLock, Step.mapWrite id v, Step.releaseLock] ∧
      (set_health_steps t id v)[1]? = some (Step.mapWrite id v) ∧
      lockHeldAt (set_health_steps t id v) 1 = true ∧
      (set_health_steps t id v)[4]? = some (Step.constructEvent ⟨id, v⟩) ∧
      (set_health_steps t id v)[5]?
        = some (Step.publishSubmit t._mediator_channel ⟨id, v⟩ false) ∧
      lockHeldAt (set_health_steps t id v) 4 = false ∧
      lockHeldAt (set_health_steps t id v) 5 = false :=
  ⟨rfl, rfl, rfl, rfl, rfl, rfl, rfl⟩

/-- C5: `set_health` submits exactly one publish, with `wait = false`
(fire-and-forget); no step of its body awaits delivery completion; and the
submission neither consults nor alters the registration list, so the call
is the same regardless of how many observers exist. -/
theorem publish_fire_and_forget (t : HealthTracker) (id : String) (v : Bool) :
    (set_health_steps t id v).filter isPublishSubmit
        = [Step.publishSubmit t._mediator_channel ⟨id, v⟩ false] ∧
      Step.awaitDeliveryCompletion ∉ set_health_steps t id v ∧
      (t.set_health id v)._mediator.subs = t._mediator.subs := by
  refine ⟨rfl, ?_, rfl⟩
  simp [set_health_steps]

/-- C6: `set_health(id, v)` leaves the observed value of every other key
unchanged, `subscribe` leaves the dict untouched, and over any sequence of
public operations the key list only grows (every present key stays
present): no operation removes a key. -/
theorem frame_and_monotone_keys (t : HealthTracker) (id : String) (v : Bool)
    (idp : String) (c : Nat) (ops : List Op) (k : String)
    (hne : idp ≠ id) (hk : k ∈ dictKeys t._heath_states) :
    (t.set_health id v).get_health idp = t.get_health idp ∧
      (t.subscribe c)._heath_states = t._heath_states ∧
      k ∈ dictKeys (runOps t ops)._heath_states := by
  refine ⟨?_, rfl, mem_dictKeys_runOps t ops k hk⟩
  show dictGet (dictSet t._heath_states id v) idp false = dictGet t._heath_states idp false
  exact dictGet_dictSet_ne _ _ _ _ _ hne

theorem frame_and_monotone_keys_witness :
    ("cache" ≠ "db" ∧ "db" ∈ dictKeys (sampleTracker.set_health "db" true)._heath_states) ∧
      (((sampleTracker.set_health "db" true).set_health "db" false).get_health "cache"
          = (sampleTracker.set_health "db" true).get_health "cache" ∧
        ((sampleTracker.set_health "db" true).subscribe 3)._heath_states
          = (sampleTracker.set_health "db" true)._heath_states ∧
        "db" ∈ dictKeys (runOps (sampleTracker.set_health "db" true) sampleOps)._heath_states) :=
  ⟨⟨by decide, by decide⟩,
   frame_and_monotone_keys (sampleTracker.set_health "db" true) "db" false "cache" 3
     sampleOps "db" (by decide) (by decide)⟩

/-- C7: all three public operations are total over their input domain: the
exception-explicit embeddings of `get_health`, `set_health` and
`subscribe` return `ok` for every tracker state, every string id, every
boolean and every callback — there is no raising path in the source. -/
theorem operations_total (t : HealthTracker) (id : String) (v : Bool) (cb : Nat) :
    (t.get_healthE id).isOk = true ∧ (t.set_healthE id v).isOk = true ∧
      (t.subscribeE cb).isOk = true :=
  ⟨rfl, rfl, rfl⟩

/-! ### Helper lemmas for the event and channel claims -/

theorem published_extends (ops : List Op) (t : HealthTracker) :
    ∃ rest, (runOps t ops)._mediator.published = t._mediator.published ++ rest := by
  induction ops generalizing t with
  | nil => exact ⟨[], (List.append_nil _).symm⟩
  | cons op rest2 ih =>
    cases op with
    | set ty hv =>
      obtain ⟨r2, hr⟩ := ih (t.set_health ty hv)
      refine ⟨(t._mediator_channel, ⟨ty, hv⟩) :: r2, ?_⟩
      show (runOps (t.set_health ty hv) rest2)._mediator.published = _
      rw [hr]
      simp [HealthTracker.set_health, Mediator.publish]
    | get x =>
      obtain ⟨r2, hr⟩ := ih t
      exact ⟨r2, hr⟩
    | sub c =>
      obtain ⟨r2, hr⟩ := ih (t.subscribe c)
      exact ⟨r2, hr⟩

theorem hexChar_inj : ∀ a < 16, ∀ b < 16, hexChar a = hexChar b → a = b := by decide

theorem bytesHexAux_inj : ∀ l1 l2 : List Nat, (∀ x ∈ l1, x < 256) → (∀ x ∈ l2, x < 256) →
    bytesHexAux l1 = bytesHexAux l2 → l1 = l2 := by
  intro l1
  induction l1 with
  | nil =>
    intro l2 _ _ h
    cases l2 with
    | nil => rfl
    | cons b rest => simp [bytesHexAux] at h
  | cons a rest ih =>
    intro l2 h1 h2 h
    cases l2 with
    | nil => simp [bytesHexAux] at h
    | cons b rest2 =>
      simp only [bytesHexAux, List.cons.injEq] at h
      obtain ⟨hhi, hlo, hrest⟩ := h
      have ha : a < 256 := h1 a (List.mem_cons_self _ _)
      have hb : b < 256 := h2 b (List.mem_cons_self _ _)
      have hdiv : a / 16 = b / 16 :=
        hexChar_inj (a / 16) (by omega) (b / 16) (by omega) hhi
      have hmod : a % 16 = b % 16 :=
        hexChar_inj (a % 16) (by omega) (b % 16) (by omega) hlo
      have hab : a = b := by omega
      have hr : rest = rest2 :=
        ih rest2 (fun x hx => h1 x (List.mem_cons_of_mem _ hx))
          (fun x hx => h2 x (List.mem_cons_of_mem _ hx)) hrest
      rw [hab, hr]

/-- C8: the change event created by `set_health(id, v)` is the record
`⟨id, v⟩` (fields `type` and `healthy` are exactly the written pair, and
the observer wrapper passes exactly `(id, v)` on); it is the one event
appended to the published log, and no later sequence of public operations
alters it — runs only extend the log, so every observer receives the
values that were written. -/
theorem event_carries_write (t : HealthTracker) (id : String) (v : Bool) (ops : List Op) :
    (_HealthStatus.mk id v).type = id ∧
      (_HealthStatus.mk id v).healthy = v ∧
      observerArgs ⟨id, v⟩ = (id, v) ∧
      (t.set_health id v)._mediator.published
        = t._mediator.published ++ [(t._mediator_channel, ⟨id, v⟩)] ∧
      ∃ rest, (runOps (t.set_health id v) ops)._mediator.published
        = t._mediator.published ++ [(t._mediator_channel, ⟨id, v⟩)] ++ rest := by
  refine ⟨rfl, rfl, rfl, rfl, ?_⟩
  obtain ⟨r2, hr⟩ := published_extends ops (t.set_health id v)
  exact ⟨r2, hr⟩

/-- C9 counterexample: the claim says the channel is "the identifier
supplied by the owner when one is given", but the source computes
`mediator_channel or os.urandom(16).hex()` with Python `or`, which treats
the supplied empty string as falsy: a store constructed with the supplied
channel `""` gets a random hex channel instead, which is not the supplied
identifier. -/
theorem empty_channel_counterexample :
    (HealthTracker.init none (some "") (List.replicate 16 0))._mediator_channel ≠ "" := by
  decide

/-- C9 (amended): every store has exactly one channel identifier fixed at
construction and unchanged by every public operation; it is the supplied
identifier when a non-empty one is given (an absent or empty identifier is
falsy under Python `or` and triggers generation), otherwise the hex string
of the 16 freshly drawn random bytes — and two stores constructed with
default scopes from distinct valid byte draws of equal length never share
a channel. -/
theorem channel_fixed_amended :
    (∀ (m : Option Mediator) (c : String) (r : List Nat), c ≠ "" →
        (HealthTracker.init m (some c) r)._mediator_channel = c) ∧
      (∀ (m : Option Mediator) (r : List Nat),
        (HealthTracker.init m none r)._mediator_channel = bytesHex r) ∧
      (∀ (m1 m2 : Option Mediator) (r1 r2 : List Nat),
        (∀ x ∈ r1, x < 256) → (∀ x ∈ r2, x < 256) → r1 ≠ r2 →
        (HealthTracker.init m1 none r1)._mediator_channel
          ≠ (HealthTracker.init m2 none r2)._mediator_channel) ∧
      (∀ (t : HealthTracker) (op : Op),
        (applyOp t op)._mediator_channel = t._mediator_channel) := by
  refine ⟨?_, ?_, ?_, ?_⟩
  · intro m c r hc
    simp [HealthTracker.init, pyOrStr, hc]
  · intro m r
    rfl
  · intro m1 m2 r1 r2 hv1 hv2 hne heq
    apply hne
    apply bytesHexAux_inj r1 r2 hv1 hv2
    have hdata := congrArg String.data heq
    simpa [HealthTracker.init, pyOrStr, bytesHex] using hdata
  · intro t op
    cases op <;> rfl

theorem channel_fixed_amended_witness :
    (HealthTracker.init none (some "abc") (List.replicate 16 0))._mediator_channel
        = "abc" ∧
      (HealthTracker.init none none (List.replicate 16 0))._mediator_channel
        = bytesHex (List.replicate 16 0) ∧
      (HealthTracker.init none none (List.replicate 16 0))._mediator_channel
        ≠ (HealthTracker.init none none (List.replicate 16 1))._mediator_channel ∧
      (applyOp sampleTracker (Op.set "db" true))._mediator_channel
        = sampleTracker._mediator_channel :=
  ⟨channel_fixed_amended.1 none "abc" (List.replicate 16 0) (by decide),
   channel_fixed_amended.2.1 none (List.replicate 16 0),
   channel_fixed_amended.2.2.1 none none (List.replicate 16 0) (List.replicate 16 1)
     (by decide) (by decide) (by decide),
   channel_fixed_amended.2.2.2 sampleTracker (Op.set "db" true)⟩

/-! ### Helper lemmas for repeated subscription -/

theorem subscribeN_channel (t : HealthTracker) (cb n : Nat) :
    (subscribeN t cb n)._mediator_channel = t._mediator_channel := by
  induction n with
  | zero => rfl
  | succ k ih => exact ih

theorem subscribeN_published (t : HealthTracker) (cb n : Nat) :
    (subscribeN t cb n)._mediator.published = t._mediator.published := by
  induction n with
  | zero => rfl
  | succ k ih => exact ih

theorem subscribeN_subs (t : HealthTracker) (cb n : Nat) :
    (subscribeN t cb n)._mediator.subs
      = t._mediator.subs
        ++ List.replicate n ⟨t._mediator_channel, cb, t._mediator.published.length⟩ := by
  induction n with
  | zero => simp [subscribeN]
  | succ k ih =>
    show ((subscribeN t cb k).subscribe cb)._mediator.subs = _
    simp only [HealthTracker.subscribe, Mediator.create_subscription]
    rw [ih, subscribeN_channel, subscribeN_published, List.replicate_succ']
    exact List.append_assoc _ _ _

theorem filter_replicate_true {α : Type} (p : α → Bool) (a : α) (n : Nat)
    (h : p a = true) :
    List.filter p (List.replicate n a) = List.replicate n a := by
  induction n with
  | zero => rfl
  | succ k ih => simp [List.replicate_succ, List.filter_cons, h, ih]

/-- C10: each `subscribe` call registers a new, independent registration
wrapping the callback — subscribing the same callback N times yields N
additional registrations on the store's channel, and the event produced by
a subsequent `set_health` is delivered to (invokes) that callback once per
registration, i.e. N more times; and no public operation removes a
registration (every operation leaves the registration list as an extension
of the old one — there is no unsubscribe). -/
theorem subscribe_accumulates (t : HealthTracker) (cb n : Nat) (id : String) (v : Bool)
    (op : Op)
    (hinv : ∀ s ∈ t._mediator.subs, s.regIndex ≤ t._mediator.published.length) :
    countSubsFor (subscribeN t cb n) cb = countSubsFor t cb + n ∧
      invocationsAt ((subscribeN t cb n).set_health id v) cb
          ((subscribeN t cb n)._mediator.published.length)
        = countSubsFor (subscribeN t cb n) cb ∧
      ∃ rest, (applyOp t op)._mediator.subs = t._mediator.subs ++ rest := by
  have hch := subscribeN_channel t cb n
  have hpub := subscribeN_published t cb n
  have hsubs := subscribeN_subs t cb n
  refine ⟨?_, ?_, ?_⟩
  · simp only [countSubsFor, hsubs, hch, List.filter_append, List.length_append]
    rw [filter_replicate_true
        (fun s : Subscription => s.callback == cb && s.channel == t._mediator_channel)
        ⟨t._mediator_channel, cb, t._mediator.published.length⟩ n (by simp),
      List.length_replicate]
  · have hsame : ∀ s ∈ (subscribeN t cb n)._mediator.subs,
        (s.callback == cb && s.channel == (subscribeN t cb n)._mediator_channel
            && decide (s.regIndex ≤ (subscribeN t cb n)._mediator.published.length))
          = (s.callback == cb && s.channel == (subscribeN t cb n)._mediator_channel) := by
      intro s hs
      have hle : s.regIndex ≤ (subscribeN t cb n)._mediator.published.length := by
        rw [hpub]
        rw [hsubs] at hs
        rcases List.mem_append.mp hs with hs | hs
        · exact hinv s hs
        · rw [List.eq_of_mem_replicate hs]
      rw [decide_eq_true hle, Bool.and_true]
    exact congrArg List.length (List.filter_congr hsame)
  · cases op with
    | set ty hv => exact ⟨[], by simp [applyOp, HealthTracker.set_health, Mediator.publish]⟩
    | get x => exact ⟨[], by simp [applyOp]⟩
    | sub c => exact ⟨[⟨t._mediator_channel, c, t._mediator.published.length⟩], rfl⟩

theorem subscribe_accumulates_witness :
    (∀ s ∈ sampleTracker._mediator.subs,
        s.regIndex ≤ sampleTracker._mediator.published.length) ∧
      (countSubsFor (subscribeN sampleTracker 7 2) 7 = countSubsFor sampleTracker 7 + 2 ∧
        invocationsAt ((subscribeN sampleTracker 7 2).set_health "db" true) 7
            ((subscribeN sampleTracker 7 2)._mediator.published.length)
          = countSubsFor (subscribeN sampleTracker 7 2) 7 ∧
        ∃ rest, (applyOp sampleTracker (Op.sub 7))._mediator.subs
          = sampleTracker._mediator.subs ++ rest) :=
  ⟨by decide, subscribe_accumulates sampleTracker 7 2 "db" true (Op.sub 7) (by decide)⟩
